import Mathlib

/-!
Shallow embedding of the certificate-genie field placement, mapping and
generation logic (the CertificatePreview, TemplateEditor and Generate
pages), together with proofs about it.  Coordinates and scale factors are
modelled as exact rationals; JavaScript objects with string keys are
modelled as association lists; JavaScript truthiness on strings and
numbers is modelled explicitly where the code relies on it.
-/

namespace CertGenie

/-- Model of a JavaScript number restricted to the values arising in the
scale computations: a finite rational, or the positive infinity produced
by dividing a positive constant by zero. -/
inductive JsNum where
  | fin (q : ℚ)
  | posInf
deriving DecidableEq

/-- JavaScript Math.min on two values of this model: positive infinity is
absorbed by any finite argument. -/
def JsNum.min2 : JsNum → JsNum → JsNum
  | JsNum.fin a, JsNum.fin b => JsNum.fin (min a b)
  | JsNum.fin a, JsNum.posInf => JsNum.fin a
  | JsNum.posInf, b => b

/-- Whether a modelled JavaScript number is finite. -/
def JsNum.isFinite : JsNum → Bool
  | JsNum.fin _ => true
  | JsNum.posInf => false

/-- JavaScript division a / b for a positive numerator a: the quotient
when the divisor is nonzero, positive infinity when it is zero. -/
def jsDiv (a b : ℚ) : JsNum :=
  if b = 0 then JsNum.posInf else JsNum.fin (a / b)

/-- JavaScript a || fallback on numbers, as used by the preview dimension
fallbacks: zero (the only falsy numeric value arising here) is replaced by
the fallback. -/
def jsOrQ (a fallback : ℚ) : ℚ := if a = 0 then fallback else a

/-- JavaScript s || d on an optional string: undefined and the empty
string fall back to the default. -/
def jsOrStr (s : Option String) (d : String) : String :=
  match s with
  | some v => if v = "" then d else v
  | none => d

/-- Model of the JavaScript toLowerCase call used by the automatic
mapping: lowercase every character of the string. -/
def jsToLower (s : String) : String := String.mk (s.data.map Char.toLower)

/-- A CSV row or a field-to-column mapping: a JavaScript object with
string keys and string values, modelled as an association list (first
binding wins on lookup). -/
abbrev StrMap := List (String × String)

/-- Property read m[k] on such an object: some value, or none for
undefined. -/
def lookupStr (m : StrMap) (k : String) : Option String :=
  (m.find? (fun p => p.1 == k)).map (fun p => p.2)

/-- Placeholder token for an unresolved field: the key wrapped in double
braces. -/
def placeholder (fieldKey : String) : String :=
  "\x7b\x7b" ++ fieldKey ++ "\x7d\x7d"

/-- A template field as held in the editor and in the preview props. -/
structure Field where
  id : String
  field_key : String
  label : String
  x : ℚ
  y : ℚ
  font_size : ℚ
  font_family : String
  font_color : String
  text_align : String
  max_width : Option ℚ
deriving DecidableEq

/-- A partial update to a field (the TypeScript Partial of TemplateField):
each present attribute overrides the field's value, absent attributes
leave it unchanged. -/
structure FieldUpdates where
  id : Option String := none
  field_key : Option String := none
  label : Option String := none
  x : Option ℚ := none
  y : Option ℚ := none
  font_size : Option ℚ := none
  font_family : Option String := none
  font_color : Option String := none
  text_align : Option String := none
  max_width : Option (Option ℚ) := none
deriving DecidableEq

/-- The JavaScript object spread used by updateField, written
as { ...f, ...updates }. -/
def applyUpdates (f : Field) (u : FieldUpdates) : Field :=
  { id := u.id.getD f.id
  , field_key := u.field_key.getD f.field_key
  , label := u.label.getD f.label
  , x := u.x.getD f.x
  , y := u.y.getD f.y
  , font_size := u.font_size.getD f.font_size
  , font_family := u.font_family.getD f.font_family
  , font_color := u.font_color.getD f.font_color
  , text_align := u.text_align.getD f.text_align
  , max_width := u.max_width.getD f.max_width }

/-- TemplateEditor updateField (src part_000 lines 385-387): map over the
field list, spreading the updates into the field whose id matches. -/
def updateField (fields : List Field) (fieldId : String) (u : FieldUpdates) : List Field :=
  fields.map (fun f => if f.id = fieldId then applyUpdates f u else f)

/-- TemplateEditor removeField (src part_000 lines 390-393): drop the
field whose id matches; the selection bookkeeping is not modelled since
the claims are about the field list. -/
def removeField (fields : List Field) (fieldId : String) : List Field :=
  fields.filter (fun f => f.id != fieldId)

/-- Display position of a point placed inside a Konva stage whose scaleX
and scaleY equal the given scale: the stage transform multiplies each
coordinate. -/
def stageTransform (scale : ℚ) (p : ℚ × ℚ) : ℚ × ℚ := (p.1 * scale, p.2 * scale)

/-- Inverse of the stage transform: the node-space position corresponding
to a display-space position, each coordinate divided by the stage scale.
This is what node.x() and node.y() report after a drag inside the scaled
editor stage. -/
def stageInverse (scale : ℚ) (p : ℚ × ℚ) : ℚ × ℚ := (p.1 / scale, p.2 / scale)

/-- The partial update committed by handleDragEnd (src part_000 lines
396-401): only x and y, taken from the dragged node position. -/
def dragEndUpdates (nodePos : ℚ × ℚ) : FieldUpdates :=
  { x := some nodePos.1, y := some nodePos.2 }

/-- TemplateEditor handleDragEnd: write the dragged node position into the
field's model coordinates through updateField. -/
def handleDragEnd (fields : List Field) (fieldId : String) (nodePos : ℚ × ℚ) : List Field :=
  updateField fields fieldId (dragEndUpdates nodePos)

/-- Preview native width with its JavaScript fallback, from
template.image_width || 800 (src part_000 line 52). -/
def previewTemplateWidth (imageWidth : ℚ) : ℚ := jsOrQ imageWidth 800

/-- Preview native height with its JavaScript fallback, from
template.image_height || 600 (src part_000 line 53). -/
def previewTemplateHeight (imageHeight : ℚ) : ℚ := jsOrQ imageHeight 600

/-- Initial preview container width before the container has been
measured, from useState(800) (src part_000 line 48). -/
def initialContainerWidth : ℚ := 800

/-- CertificatePreview scale (src part_000 line 54): the code computes
Math.min(containerWidth / templateWidth, 0.9); only the width ratio
appears, no height ratio. -/
def previewScale (containerWidth imageWidth : ℚ) : ℚ :=
  min (containerWidth / previewTemplateWidth imageWidth) (9 / 10)

/-- Fixed editor canvas width bound (src part_000 line 489). -/
def editorMaxWidth : ℚ := 800

/-- Fixed editor canvas height bound (src part_000 line 490). -/
def editorMaxHeight : ℚ := 500

/-- TemplateEditor scale (src part_000 line 491): the code computes
Math.min(maxWidth / width, maxHeight / height, 1) over JavaScript numbers,
so a zero dimension produces an infinite ratio which the final constant 1
absorbs. -/
def editorScale (imageWidth imageHeight : ℚ) : JsNum :=
  JsNum.min2
    (JsNum.min2 (jsDiv editorMaxWidth imageWidth) (jsDiv editorMaxHeight imageHeight))
    (JsNum.fin 1)

/-- Divisors of the two divisions performed by the editor scale
computation at src part_000 line 491: the native width and height
themselves, unchanged - no fallback is applied to either. -/
def editorScaleDivisors (imageWidth imageHeight : ℚ) : List ℚ :=
  [imageWidth, imageHeight]

/-- The scale formula exactly as the spec words it:
min(AW / W, AH / H, cap). -/
def scaleSpecFormula (cap W H AW AH : ℚ) : ℚ :=
  min (min (AW / W) (AH / H)) cap

/-- CertificatePreview getFieldValue (src part_000 lines 71-77): return
the row's value under the mapped column when both the mapping entry and
the cell are truthy (defined and non-empty), otherwise the placeholder
token. -/
def getFieldValue (fieldMapping currentRow : StrMap) (fieldKey : String) : String :=
  match lookupStr fieldMapping fieldKey with
  | some csvColumn =>
    if csvColumn = "" then placeholder fieldKey
    else
      match lookupStr currentRow csvColumn with
      | some v => if v = "" then placeholder fieldKey else v
      | none => placeholder fieldKey
  | none => placeholder fieldKey

/-- One step of the automatic mapping population (src part_000 lines
1193-1200): find the first header whose lowercase form equals the field
key's lowercase form and, when found, assign it under the field key. -/
def autoMapStep (headers : List String) (m : String → Option String) (key : String) :
    String → Option String :=
  match headers.find? (fun hd => jsToLower hd == jsToLower key) with
  | some matchingHeader => fun k => if k = key then some matchingHeader else m k
  | none => m

/-- The forEach loop of the automatic mapping population, one field key at
a time over an accumulating object. -/
def autoMapGo (headers : List String) : List String → (String → Option String) →
    String → Option String
  | [], m => m
  | key :: rest, m => autoMapGo headers rest (autoMapStep headers m key)

/-- Automatic field-to-column mapping built when a CSV is loaded (src
part_000 lines 1191-1201), starting from the empty object. -/
def autoMap (templateFields headers : List String) : String → Option String :=
  autoMapGo headers templateFields (fun _ => none)

/-- CertificatePreview handlePrev (src part_000 lines 79-81). -/
def handlePrev (i : ℤ) : ℤ := max 0 (i - 1)

/-- CertificatePreview handleNext (src part_000 lines 83-85). -/
def handleNext (rowCount i : ℤ) : ℤ := min (rowCount - 1) (i + 1)

/-- The attributes of a rendered Konva Text node that the claims are
about. -/
structure RenderedText where
  x : ℚ
  y : ℚ
  text : String
  fontSize : ℚ
  width : Option ℚ
deriving DecidableEq

/-- CertificatePreview field rendering (src part_000 lines 164-176):
x, y and font_size are multiplied by the preview scale explicitly, and
max_width is multiplied by it when truthy (present and nonzero). -/
def previewRenderField (scale : ℚ) (fieldMapping currentRow : StrMap) (f : Field) :
    RenderedText :=
  { x := f.x * scale
  , y := f.y * scale
  , text := getFieldValue fieldMapping currentRow f.field_key
  , fontSize := f.font_size * scale
  , width :=
      match f.max_width with
      | some m => if m = 0 then none else some (m * scale)
      | none => none }

/-- Editor node position of a field inside the scaled stage: the model
coordinates directly (src part_000 lines 793-795). -/
def editorFieldNodePos (f : Field) : ℚ × ℚ := (f.x, f.y)

/-- Display position of an editor field: the stage transform applied to
its node position, since the editor Stage has scaleX = scaleY = scale
(src part_000 lines 771-776). -/
def editorDisplayPos (scale : ℚ) (f : Field) : ℚ × ℚ :=
  stageTransform scale (editorFieldNodePos f)

/-- The row inserted into template_fields for one field on save (src
part_000 lines 455-466): the field's attributes without its transient
client-side id. -/
structure FieldInsertRow where
  field_key : String
  label : String
  x : ℚ
  y : ℚ
  font_size : ℚ
  font_family : String
  font_color : String
  text_align : String
  max_width : Option ℚ
deriving DecidableEq

/-- Projection of an in-memory field to its persisted insert payload. -/
def fieldInsertRow (f : Field) : FieldInsertRow :=
  { field_key := f.field_key
  , label := f.label
  , x := f.x
  , y := f.y
  , font_size := f.font_size
  , font_family := f.font_family
  , font_color := f.font_color
  , text_align := f.text_align
  , max_width := f.max_width }

/-- The persisted template_fields table: payload rows tagged with their
template_id. -/
abbrev FieldsTable := List (String × FieldInsertRow)

/-- Field-set portion of the save mutation in edit mode (src part_000
lines 414-470): delete every persisted field of the template, then insert
the whole in-memory set; the insert call is skipped when the set is
empty. -/
def saveFields (db : FieldsTable) (templateId : String) (fields : List Field) : FieldsTable :=
  let afterDelete := db.filter (fun r => r.1 != templateId)
  if 0 < fields.length then
    afterDelete ++ fields.map (fun f => (templateId, fieldInsertRow f))
  else afterDelete

/-- saveMutation guard plus the field write (src part_000 lines 404-473):
it throws when the user, the image url or the template name is missing,
and otherwise performs the replace-all field write. -/
def saveMutation (hasUser : Bool) (imageUrl templateName : String)
    (db : FieldsTable) (templateId : String) (fields : List Field) : Option FieldsTable :=
  if hasUser = false ∨ imageUrl = "" ∨ templateName = "" then none
  else some (saveFields db templateId fields)

/-- A certificates-table row inserted for one CSV row (src part_000 lines
1247-1254). -/
structure Certificate where
  recipient_name : String
  recipient_email : Option String
  recipient_data : StrMap
  email_status : String
deriving DecidableEq

/-- The batch-job columns tracked by the generation flow. -/
structure BatchJob where
  status : String
  total_count : ℕ
  generated_count : ℕ
deriving DecidableEq

/-- The certificate record built for one CSV row (src part_000 lines
1247-1254), with the JavaScript || fallbacks for the name column and the
name value. -/
def certificateForRow (fieldMapping : StrMap) (sendEmails : Bool) (emailColumn : String)
    (row : StrMap) : Certificate :=
  { recipient_name :=
      jsOrStr (lookupStr row (jsOrStr (lookupStr fieldMapping "name") "name")) "Unknown"
  , recipient_email := if sendEmails then lookupStr row emailColumn else none
  , recipient_data := row
  , email_status := "pending" }

/-- The sequential generation loop (src part_000 lines 1243-1257): one
certificate insert per row, awaited in row order. -/
def generateLoop (fieldMapping : StrMap) (sendEmails : Bool) (emailColumn : String) :
    List StrMap → List Certificate
  | [] => []
  | row :: rest =>
      certificateForRow fieldMapping sendEmails emailColumn row ::
        generateLoop fieldMapping sendEmails emailColumn rest

/-- Generate handleGenerate (src part_000 lines 1219-1279): the guard, the
batch insert with status processing and total_count set to the row count,
the sequential per-row loop, and the final batch update to completed with
generated_count set to the row count. -/
def handleGenerate (templateSelected : Bool) (csvData : List StrMap)
    (fieldMapping : StrMap) (sendEmails : Bool) (emailColumn : String) :
    Option (List Certificate × BatchJob) :=
  if templateSelected = false ∨ csvData.length = 0 then none
  else
    let batch0 : BatchJob :=
      { status := "processing", total_count := csvData.length, generated_count := 0 }
    let certs := generateLoop fieldMapping sendEmails emailColumn csvData
    some (certs, { batch0 with status := "completed", generated_count := csvData.length })

/-! Helper lemmas shared between claims. -/

/-- Math.min with a finite right argument always yields a finite value. -/
theorem JsNum.isFinite_min2_fin (a : JsNum) (q : ℚ) :
    JsNum.isFinite (JsNum.min2 a (JsNum.fin q)) = true := by
  cases a <;> rfl

/-! Claim C1: the scale factor. -/

/-- Claim C1 counterexample: the preview scale ignores the height ratio.
With native dimensions 800 x 600, available width 800 and available
height 300, the claimed formula min(AW/W, AH/H, 0.9) gives 1/2, but the
code computes min(containerWidth/templateWidth, 0.9) = 9/10. -/
theorem previewScale_claim_false :
    previewScale 800 800 = 9 / 10
    ∧ scaleSpecFormula (9 / 10) 800 600 800 300 = 1 / 2
    ∧ previewScale 800 800 ≠ scaleSpecFormula (9 / 10) 800 600 800 300 := by
  have h1 : previewScale 800 800 = 9 / 10 := by
    norm_num [previewScale, previewTemplateWidth, jsOrQ, min_def]
  have h2 : scaleSpecFormula (9 / 10) 800 600 800 300 = 1 / 2 := by
    norm_num [scaleSpecFormula, min_def]
  refine ⟨h1, h2, ?_⟩
  rw [h1, h2]
  norm_num

/-- Claim C1 (amended): for native dimensions W, H > 0 the editor scale
equals min(AW/W, AH/H, 1) with its fixed available area AW = 800,
AH = 500; the read-only preview uses only the width ratio, computing
min(AW/W, 9/10) for container width AW, with no height ratio involved. -/
theorem scale_editor_and_preview (W H AW : ℚ) (hW : 0 < W) (hH : 0 < H) (_hAW : 0 < AW) :
    editorScale W H = JsNum.fin (scaleSpecFormula 1 W H editorMaxWidth editorMaxHeight)
    ∧ previewScale AW W = min (AW / W) (9 / 10) := by
  constructor
  · simp [editorScale, jsDiv, JsNum.min2, scaleSpecFormula, hW.ne', hH.ne']
  · simp [previewScale, previewTemplateWidth, jsOrQ, hW.ne']

/-- Witness for the amended claim C1 at native 1600 x 1000, container
width 400: the editor scale is 1/2 and the preview scale is 1/2. -/
theorem scale_editor_and_preview_witness :
    editorScale 1600 1000 = JsNum.fin (1 / 2) ∧ previewScale 400 800 = 1 / 2 := by
  have h1600 := scale_editor_and_preview 1600 1000 400 (by norm_num) (by norm_num) (by norm_num)
  have h800 := scale_editor_and_preview 800 600 400 (by norm_num) (by norm_num) (by norm_num)
  constructor
  · rw [h1600.1]
    norm_num [scaleSpecFormula, editorMaxWidth, editorMaxHeight, min_def]
  · rw [h800.2]
    norm_num [min_def]

/-! Claim C9: division-by-zero safety of the scale computations. -/

/-- Claim C9 counterexample: with native width 0 the editor applies no
fallback at all - the first division's divisor is 0 itself and the
JavaScript quotient 800 / 0 is the non-finite Infinity value, so a
division by zero does occur in the editor. -/
theorem editorScale_divByZero :
    (0 : ℚ) ∈ editorScaleDivisors 0 600
    ∧ jsDiv editorMaxWidth 0 = JsNum.posInf
    ∧ JsNum.isFinite (jsDiv editorMaxWidth 0) = false := by
  refine ⟨?_, ?_, ?_⟩ <;> decide

/-- Claim C9 (amended): the preview replaces a zero native width by the
fallback 800 and a zero native height by 600, and the unmeasured
container defaults to width 800, so the preview's divisor is never zero;
the editor applies no such fallback to zero native dimensions, but its
scale is still a finite, well-defined number for every input because the
constant cap 1 inside Math.min absorbs the infinite ratios. -/
theorem scale_safety (w h : ℚ) :
    previewTemplateWidth w ≠ 0
    ∧ previewTemplateHeight h ≠ 0
    ∧ initialContainerWidth = 800
    ∧ JsNum.isFinite (editorScale w h) = true := by
  refine ⟨?_, ?_, rfl, ?_⟩
  · by_cases hw : w = 0 <;> simp [previewTemplateWidth, jsOrQ, hw]
  · by_cases hh : h = 0 <;> simp [previewTemplateHeight, jsOrQ, hh]
  · exact JsNum.isFinite_min2_fin _ 1

/-! Claim C6: preview navigation stays in range and is a no-op at the
boundaries. -/

/-- Claim C6: for a row count n of at least 1 and an index i within
[0, n-1], handlePrev and handleNext clamp back into [0, n-1]; at index 0
handlePrev returns 0, and at index n-1 handleNext leaves the index
unchanged. -/
theorem nav_clamp (n i : ℤ) (hn : 1 ≤ n) (h0 : 0 ≤ i) (h1 : i ≤ n - 1) :
    0 ≤ handlePrev i ∧ handlePrev i ≤ n - 1
    ∧ 0 ≤ handleNext n i ∧ handleNext n i ≤ n - 1
    ∧ handlePrev 0 = 0
    ∧ (i = n - 1 → handleNext n i = i) := by
  unfold handlePrev handleNext
  refine ⟨?_, ?_, ?_, ?_, ?_, ?_⟩ <;> omega

/-- Witness for claim C6 with 3 rows: previous at index 0 stays at 0,
next at index 2 stays at 2, and next from 0 lands inside [0, 2]. -/
theorem nav_clamp_witness :
    handlePrev 0 = 0 ∧ handleNext 3 2 = 2
    ∧ 0 ≤ handleNext 3 0 ∧ handleNext 3 0 ≤ 2 := by
  have ha := nav_clamp 3 0 (by norm_num) (by norm_num) (by norm_num)
  have hb := nav_clamp 3 2 (by norm_num) (by norm_num) (by norm_num)
  refine ⟨ha.2.2.2.2.1, hb.2.2.2.2.2 (by norm_num), ha.2.2.1, ?_⟩
  have := ha.2.2.2.1
  omega

/-! Claim C3: field value resolution. -/

/-- Claim C3 counterexample: with the mapping sending course to the empty
column name (a defined entry) and a row holding the non-empty value X
under the column named by the empty string, the claim requires resolve to
return X, but the code's truthiness test on the mapped column name makes
it return the placeholder instead. -/
theorem getFieldValue_claim_false :
    lookupStr [("course", "")] "course" = some ""
    ∧ lookupStr [("", "X")] "" = some "X"
    ∧ ("X" : String) ≠ ""
    ∧ getFieldValue [("course", "")] [("", "X")] "course" ≠ "X"
    ∧ getFieldValue [("course", "")] [("", "X")] "course" = placeholder "course" := by
  refine ⟨rfl, rfl, ?_, ?_, rfl⟩ <;> decide

/-- Claim C3 (amended): getFieldValue returns the row's value under the
mapped column when the mapping entry is defined and non-empty and the row
holds a non-empty value under that column; in every other case (no
mapping entry, an empty mapped column name, or a missing or empty cell)
it returns the double-brace placeholder for the field key. -/
theorem getFieldValue_spec (fieldMapping currentRow : StrMap) (fieldKey : String) :
    (∀ col v, lookupStr fieldMapping fieldKey = some col → col ≠ "" →
        lookupStr currentRow col = some v → v ≠ "" →
        getFieldValue fieldMapping currentRow fieldKey = v)
    ∧ (lookupStr fieldMapping fieldKey = none →
        getFieldValue fieldMapping currentRow fieldKey = placeholder fieldKey)
    ∧ (lookupStr fieldMapping fieldKey = some "" →
        getFieldValue fieldMapping currentRow fieldKey = placeholder fieldKey)
    ∧ (∀ col, lookupStr fieldMapping fieldKey = some col →
        lookupStr currentRow col = none →
        getFieldValue fieldMapping currentRow fieldKey = placeholder fieldKey)
    ∧ (∀ col, lookupStr fieldMapping fieldKey = some col →
        lookupStr currentRow col = some "" →
        getFieldValue fieldMapping currentRow fieldKey = placeholder fieldKey) := by
  refine ⟨?_, ?_, ?_, ?_, ?_⟩
  · intro col v hcol hcne hv hvne
    simp [getFieldValue, hcol, hcne, hv, hvne]
  · intro hnone
    simp [getFieldValue, hnone]
  · intro hempty
    simp [getFieldValue, hempty]
  · intro col hcol hrow
    by_cases hcne : col = "" <;> simp [getFieldValue, hcol, hrow, hcne]
  · intro col hcol hrow
    by_cases hcne : col = "" <;> simp [getFieldValue, hcol, hrow, hcne]

/-- Witness for the amended claim C3: a mapped, non-empty cell resolves to
its value; an unmapped key resolves to its double-brace placeholder. -/
theorem getFieldValue_spec_witness :
    getFieldValue [("course", "Course")] [("Course", "Math 101")] "course" = "Math 101"
    ∧ getFieldValue [] [("Course", "Math 101")] "course" = placeholder "course" := by
  have h1 := getFieldValue_spec [("course", "Course")] [("Course", "Math 101")] "course"
  have h2 := getFieldValue_spec [] [("Course", "Math 101")] "course"
  exact ⟨h1.1 "Course" "Math 101" rfl (by decide) rfl (by decide), h2.2.1 rfl⟩

/-! Claim C4: automatic mapping population. -/

/-- Lookup of a key after the forEach loop of the automatic mapping: the
first header matching the key case-insensitively if the key occurs in the
processed field keys and a match exists, otherwise whatever the
accumulator already held. -/
theorem autoMapGo_lookup (headers : List String) (key : String) :
    ∀ (fields : List String) (m : String → Option String),
      autoMapGo headers fields m key =
        if key ∈ fields ∧ (headers.find? (fun hd => jsToLower hd == jsToLower key)).isSome
        then headers.find? (fun hd => jsToLower hd == jsToLower key)
        else m key := by
  intro fields
  induction fields with
  | nil => intro m; simp [autoMapGo]
  | cons f rest ih =>
    intro m
    rw [autoMapGo, ih]
    by_cases hmem : key ∈ rest ∧ (headers.find? (fun hd => jsToLower hd == jsToLower key)).isSome
    · simp [hmem, hmem.1, hmem.2, List.mem_cons]
    · by_cases hf : key = f
      · subst hf
        cases hfind : headers.find? (fun hd => jsToLower hd == jsToLower key) with
        | some h0 => simp [autoMapStep, hfind, hmem, List.mem_cons]
        | none => simp [autoMapStep, hfind, hmem, List.mem_cons]
      · have hne : ¬ (key ∈ f :: rest ∧
            (headers.find? (fun hd => jsToLower hd == jsToLower key)).isSome) := by
          intro hcon
          exact hmem ⟨(List.mem_cons.mp hcon.1).resolve_left hf, hcon.2⟩
        cases hfind : headers.find? (fun hd => jsToLower hd == jsToLower f) with
        | some h0 => simp [autoMapStep, hfind, hf, hmem, hne]
        | none => simp [autoMapStep, hfind, hf, hmem, hne]

/-- Claim C4: the automatic mapping maps each loaded field key to the
first header whose name equals the key under case-insensitive exact
comparison, and to nothing when no header matches (List.find? returns
none); there is no fuzzy or partial matching. -/
theorem autoMap_firstExactMatch (templateFields headers : List String) (key : String)
    (hk : key ∈ templateFields) :
    autoMap templateFields headers key =
      headers.find? (fun hd => jsToLower hd == jsToLower key) := by
  rw [autoMap, autoMapGo_lookup]
  cases hfind : headers.find? (fun hd => jsToLower hd == jsToLower key) with
  | some h0 => simp [hk, hfind]
  | none => simp [hk, hfind]

/-- Witness for claim C4: the key name auto-maps to the header name in a
header list name, email; the whitespace variant key does not auto-map at
all (its lowercase form is not equal to any header's lowercase form). -/
theorem autoMap_firstExactMatch_witness :
    autoMap ["name"] ["name", "email"] "name" = some "name"
    ∧ autoMap ["Name "] ["name", "email"] "Name " = none := by
  have h1 := autoMap_firstExactMatch ["name"] ["name", "email"] "name" (by decide)
  have h2 := autoMap_firstExactMatch ["Name "] ["name", "email"] "Name " (by decide)
  rw [h1, h2]
  exact ⟨by decide, by decide⟩

/-! Claim C5: drag commit round trip. -/

/-- Claim C5: for every positive scale, mapping a model point through the
stage transform into display space and back through the inverse transform
recovers it exactly, and committing the resulting node position through
handleDragEnd writes the original model coordinates back into the
field. -/
theorem drag_roundtrip (scale : ℚ) (p : ℚ × ℚ) (f : Field) (h : 0 < scale) :
    stageInverse scale (stageTransform scale p) = p
    ∧ (applyUpdates f (dragEndUpdates (stageInverse scale (stageTransform scale (f.x, f.y))))).x
        = f.x
    ∧ (applyUpdates f (dragEndUpdates (stageInverse scale (stageTransform scale (f.x, f.y))))).y
        = f.y
    ∧ ∀ g ∈ handleDragEnd [f] f.id (stageInverse scale (stageTransform scale (f.x, f.y))),
        g.x = f.x ∧ g.y = f.y := by
  have hne : scale ≠ 0 := ne_of_gt h
  have hcancel : ∀ a : ℚ, a * scale / scale = a := fun a => mul_div_cancel_right₀ a hne
  have hx : (applyUpdates f
      (dragEndUpdates (stageInverse scale (stageTransform scale (f.x, f.y))))).x = f.x := by
    simp [applyUpdates, dragEndUpdates, stageInverse, stageTransform, hcancel]
  have hy : (applyUpdates f
      (dragEndUpdates (stageInverse scale (stageTransform scale (f.x, f.y))))).y = f.y := by
    simp [applyUpdates, dragEndUpdates, stageInverse, stageTransform, hcancel]
  refine ⟨?_, hx, hy, ?_⟩
  · cases p with
    | mk a b => simp [stageInverse, stageTransform, hcancel]
  · intro g hg
    have hgeq : g = applyUpdates f
        (dragEndUpdates (stageInverse scale (stageTransform scale (f.x, f.y)))) := by
      simpa [handleDragEnd, updateField] using hg
    rw [hgeq]
    exact ⟨hx, hy⟩

/-- Sample field used by the drag round-trip witness. -/
def sampleDragField : Field :=
  { id := "f1", field_key := "name", label := "Participant Name", x := 400, y := 300
  , font_size := 32, font_family := "Arial", font_color := "#000000"
  , text_align := "center", max_width := none }

/-- Witness for claim C5 at scale 1/2 and model position (400, 300). -/
theorem drag_roundtrip_witness :
    stageInverse (1 / 2) (stageTransform (1 / 2) (400, 300)) = ((400 : ℚ), (300 : ℚ))
    ∧ (applyUpdates sampleDragField
        (dragEndUpdates (stageInverse (1 / 2)
          (stageTransform (1 / 2) (sampleDragField.x, sampleDragField.y))))).x
        = sampleDragField.x := by
  have h := drag_roundtrip (1 / 2) (400, 300) sampleDragField (by norm_num)
  exact ⟨h.1, h.2.1⟩

/-! Claim C8: rendered display positions. -/

/-- Claim C8: for every field, the editor display position (the stage
transform applied to the node position) and the preview's rendered x and
y all equal the model position multiplied by the scale; the preview
additionally multiplies font_size by the scale, and max_width by the
scale when it is present and nonzero. -/
theorem render_positions (scale : ℚ) (fieldMapping currentRow : StrMap) (f : Field) :
    editorDisplayPos scale f = (f.x * scale, f.y * scale)
    ∧ (previewRenderField scale fieldMapping currentRow f).x = f.x * scale
    ∧ (previewRenderField scale fieldMapping currentRow f).y = f.y * scale
    ∧ (previewRenderField scale fieldMapping currentRow f).fontSize = f.font_size * scale
    ∧ ∀ m : ℚ, f.max_width = some m → m ≠ 0 →
        (previewRenderField scale fieldMapping currentRow f).width = some (m * scale) := by
  refine ⟨rfl, rfl, rfl, rfl, ?_⟩
  intro m hm hm0
  simp [previewRenderField, hm, hm0]

/-- Sample field used by the rendering witness. -/
def sampleRenderField : Field :=
  { id := "f2", field_key := "course", label := "Course Name", x := 400, y := 300
  , font_size := 32, font_family := "Arial", font_color := "#000000"
  , text_align := "center", max_width := some 200 }

/-- Witness for claim C8 at scale 1/2: position (400, 300) is displayed at
(200, 150) and max_width 200 is rendered as width 100. -/
theorem render_positions_witness :
    editorDisplayPos (1 / 2) sampleRenderField = ((200 : ℚ), (150 : ℚ))
    ∧ (previewRenderField (1 / 2) [] [] sampleRenderField).width = some 100 := by
  have h := render_positions (1 / 2) [] [] sampleRenderField
  constructor
  · rw [h.1]
    norm_num [sampleRenderField]
  · rw [h.2.2.2.2 200 rfl (by norm_num)]
    norm_num

/-! Claim C7: replace-all save semantics. -/

/-- Rows freshly tagged with a template id all survive a filter for that
id. -/
theorem filter_map_tagged_eq (templateId : String) (fields : List Field) :
    (fields.map (fun f => (templateId, fieldInsertRow f))).filter
        (fun r => r.1 == templateId) =
      fields.map (fun f => (templateId, fieldInsertRow f)) := by
  induction fields with
  | nil => rfl
  | cons f rest ih => simp [ih]

/-- Rows freshly tagged with a template id are all dropped by a filter for
the other templates. -/
theorem filter_map_tagged_ne (templateId : String) (fields : List Field) :
    (fields.map (fun f => (templateId, fieldInsertRow f))).filter
        (fun r => r.1 != templateId) = [] := by
  induction fields with
  | nil => rfl
  | cons f rest ih => simp [ih]

/-- After deleting a template's rows, filtering for that template yields
nothing. -/
theorem filter_ne_then_eq (db : FieldsTable) (templateId : String) :
    (db.filter (fun r => r.1 != templateId)).filter (fun r => r.1 == templateId) = [] := by
  induction db with
  | nil => rfl
  | cons r rest ih =>
    by_cases h : r.1 = templateId <;> simp [List.filter_cons, h, ih]

/-- Deleting a template's rows is idempotent. -/
theorem filter_ne_idem (db : FieldsTable) (templateId : String) :
    (db.filter (fun r => r.1 != templateId)).filter (fun r => r.1 != templateId) =
      db.filter (fun r => r.1 != templateId) := by
  induction db with
  | nil => rfl
  | cons r rest ih =>
    by_cases h : r.1 = templateId <;> simp [List.filter_cons, h, ih]

/-- Claim C7: a successful save commits the in-memory field set with
replace-all semantics - afterwards the persisted rows of the template are
exactly the current in-memory fields (as insert payloads, in order), and
the rows of every other template are untouched. -/
theorem save_replaceAll (hasUser : Bool) (imageUrl templateName : String)
    (db : FieldsTable) (templateId : String) (fields : List Field) (db2 : FieldsTable)
    (hsave : saveMutation hasUser imageUrl templateName db templateId fields = some db2) :
    (db2.filter (fun r => r.1 == templateId)).map Prod.snd = fields.map fieldInsertRow
    ∧ db2.filter (fun r => r.1 != templateId) = db.filter (fun r => r.1 != templateId) := by
  rw [saveMutation] at hsave
  split at hsave
  · exact Option.noConfusion hsave
  · injection hsave with hdb2
    subst hdb2
    simp only [saveFields]
    by_cases hlen : 0 < fields.length
    · rw [if_pos hlen]
      constructor
      · rw [List.filter_append, filter_ne_then_eq, List.nil_append, filter_map_tagged_eq,
          List.map_map]
        rfl
      · rw [List.filter_append, filter_ne_idem, filter_map_tagged_ne, List.append_nil]
    · rw [if_neg hlen]
      have hfe : fields = [] := by
        cases fields with
        | nil => rfl
        | cons f rest => exact absurd (by simp) hlen
      subst hfe
      exact ⟨by rw [filter_ne_then_eq]; rfl, by rw [filter_ne_idem]⟩

/-- A stale persisted row of the saved template, used by the save
witness. -/
def sampleStaleRow : FieldInsertRow :=
  { field_key := "old", label := "Old Field", x := 5, y := 6, font_size := 24
  , font_family := "Arial", font_color := "#000000", text_align := "center"
  , max_width := none }

/-- A persisted row of a different template, used by the save witness. -/
def sampleOtherRow : FieldInsertRow :=
  { field_key := "date", label := "Date", x := 100, y := 50, font_size := 24
  , font_family := "Georgia", font_color := "#111111", text_align := "left"
  , max_width := none }

/-- The in-memory field committed by the save witness. -/
def sampleSaveField : Field :=
  { id := "temp-1", field_key := "name", label := "Participant Name", x := 400, y := 300
  , font_size := 32, font_family := "Arial", font_color := "#000000"
  , text_align := "center", max_width := none }

/-- Persisted table before the save witness runs: one stale row of the
saved template and one row of another template. -/
def sampleDb : FieldsTable := [("t1", sampleStaleRow), ("t2", sampleOtherRow)]

/-- Witness for claim C7: saving template t1 with one in-memory field
replaces its stale persisted row and leaves the other template's row
untouched. -/
theorem save_replaceAll_witness :
    saveMutation true "url" "My Template" sampleDb "t1" [sampleSaveField]
      = some (saveFields sampleDb "t1" [sampleSaveField])
    ∧ ((saveFields sampleDb "t1" [sampleSaveField]).filter
        (fun r => r.1 == "t1")).map Prod.snd = [fieldInsertRow sampleSaveField]
    ∧ (saveFields sampleDb "t1" [sampleSaveField]).filter (fun r => r.1 != "t1")
      = [("t2", sampleOtherRow)] := by
  have h := save_replaceAll true "url" "My Template" sampleDb "t1" [sampleSaveField]
      (saveFields sampleDb "t1" [sampleSaveField]) rfl
  refine ⟨rfl, ?_, ?_⟩
  · rw [h.1]
    rfl
  · rw [h.2]
    rfl

/-! Claim C2: sequential batch generation. -/

/-- The sequential generation loop builds exactly the row-wise map of the
certificate constructor. -/
theorem generateLoop_eq_map (fieldMapping : StrMap) (sendEmails : Bool) (emailColumn : String)
    (rows : List StrMap) :
    generateLoop fieldMapping sendEmails emailColumn rows =
      rows.map (certificateForRow fieldMapping sendEmails emailColumn) := by
  induction rows with
  | nil => rfl
  | cons r rest ih => simp [generateLoop, ih]

/-- Claim C2: generating from a non-empty row set with a selected template
creates exactly one certificate record per row, in row order, and finishes
with a batch whose total_count and generated_count equal the row count and
whose status is the terminal value completed. -/
theorem handleGenerate_spec (csvData : List StrMap) (fieldMapping : StrMap)
    (sendEmails : Bool) (emailColumn : String) (hne : csvData ≠ []) :
    ∃ certs batch,
      handleGenerate true csvData fieldMapping sendEmails emailColumn = some (certs, batch)
      ∧ certs.length = csvData.length
      ∧ (∀ i : ℕ, certs[i]? =
          (csvData[i]?).map (certificateForRow fieldMapping sendEmails emailColumn))
      ∧ batch.total_count = csvData.length
      ∧ batch.generated_count = csvData.length
      ∧ batch.status = "completed" := by
  have hlen : csvData.length ≠ 0 := fun h0 => hne (List.length_eq_zero.mp h0)
  refine ⟨generateLoop fieldMapping sendEmails emailColumn csvData,
    { status := "completed", total_count := csvData.length
    , generated_count := csvData.length }, ?_, ?_, ?_, rfl, rfl, rfl⟩
  · simp [handleGenerate, hlen]
  · rw [generateLoop_eq_map]
    exact List.length_map _ _
  · intro i
    rw [generateLoop_eq_map]
    simp

/-- Three sample CSV rows for the generation witness. -/
def sampleCsv3 : List StrMap :=
  [ [("name", "Alice"), ("email", "alice@example.com")]
  , [("name", "Bob"), ("email", "bob@example.com")]
  , [("name", "Carol"), ("email", "carol@example.com")] ]

/-- Witness for claim C2: a 3-row row-set yields exactly 3 certificate
records and a completed batch with generated_count 3. -/
theorem handleGenerate_spec_witness :
    ∃ certs batch,
      handleGenerate true sampleCsv3 [("name", "name")] true "email" = some (certs, batch)
      ∧ certs.length = 3
      ∧ batch.generated_count = 3
      ∧ batch.status = "completed" := by
  obtain ⟨certs, batch, h1, h2, h3, h4, h5, h6⟩ :=
    handleGenerate_spec sampleCsv3 [("name", "name")] true "email" (by simp [sampleCsv3])
  refine ⟨certs, batch, h1, ?_, ?_, h6⟩
  · rw [h2]
    rfl
  · rw [h5]
    rfl

/-! Claim C10: frame properties of updateField and removeField. -/

/-- Claim C10: updateField rewrites exactly the positions holding the
field whose id matches, leaving every other position unchanged, and the
object spread leaves every attribute absent from the update unchanged;
removeField keeps exactly the fields whose id differs. -/
theorem updateField_removeField_frame (fields : List Field) (fieldId : String)
    (u : FieldUpdates) :
    (∀ i : ℕ, (updateField fields fieldId u)[i]? =
        (fields[i]?).map (fun f => if f.id = fieldId then applyUpdates f u else f))
    ∧ (∀ f : Field, f ∈ removeField fields fieldId ↔ f ∈ fields ∧ f.id ≠ fieldId)
    ∧ (∀ (f : Field) (i : ℕ), f.id ≠ fieldId → fields[i]? = some f →
        (updateField fields fieldId u)[i]? = some f)
    ∧ (∀ f : Field,
        (u.id = none → (applyUpdates f u).id = f.id)
        ∧ (u.field_key = none → (applyUpdates f u).field_key = f.field_key)
        ∧ (u.label = none → (applyUpdates f u).label = f.label)
        ∧ (u.x = none → (applyUpdates f u).x = f.x)
        ∧ (u.y = none → (applyUpdates f u).y = f.y)
        ∧ (u.font_size = none → (applyUpdates f u).font_size = f.font_size)
        ∧ (u.font_family = none → (applyUpdates f u).font_family = f.font_family)
        ∧ (u.font_color = none → (applyUpdates f u).font_color = f.font_color)
        ∧ (u.text_align = none → (applyUpdates f u).text_align = f.text_align)
        ∧ (u.max_width = none → (applyUpdates f u).max_width = f.max_width)) := by
  refine ⟨?_, ?_, ?_, ?_⟩
  · intro i
    simp [updateField]
  · intro f
    simp [removeField, List.mem_filter, bne_iff_ne]
  · intro f i hf hi
    simp [updateField, hi, hf]
  · intro f
    refine ⟨?_, ?_, ?_, ?_, ?_, ?_, ?_, ?_, ?_, ?_⟩ <;> intro h <;> simp [applyUpdates, h]

/-- First sample field for the frame witness. -/
def frameFieldA : Field :=
  { id := "a", field_key := "name", label := "Name", x := 10, y := 20, font_size := 32
  , font_family := "Arial", font_color := "#000000", text_align := "center"
  , max_width := none }

/-- Second sample field for the frame witness. -/
def frameFieldB : Field :=
  { id := "b", field_key := "date", label := "Date", x := 30, y := 40, font_size := 24
  , font_family := "Georgia", font_color := "#111111", text_align := "left"
  , max_width := none }

/-- An update carrying only a new x coordinate, for the frame witness. -/
def frameUpdateX : FieldUpdates := { x := some 99 }

/-- Witness for claim C10: updating field a leaves field b at position 1
untouched, the x-only update leaves y unchanged, and removing field a
keeps field b while dropping field a. -/
theorem updateField_removeField_frame_witness :
    (updateField [frameFieldA, frameFieldB] "a" frameUpdateX)[1]? = some frameFieldB
    ∧ (applyUpdates frameFieldA frameUpdateX).y = frameFieldA.y
    ∧ frameFieldB ∈ removeField [frameFieldA, frameFieldB] "a"
    ∧ frameFieldA ∉ removeField [frameFieldA, frameFieldB] "a" := by
  have h := updateField_removeField_frame [frameFieldA, frameFieldB] "a" frameUpdateX
  refine ⟨?_, ?_, ?_, ?_⟩
  · exact h.2.2.1 frameFieldB 1 (by decide) rfl
  · exact (h.2.2.2 frameFieldA).2.2.2.2.1 rfl
  · exact (h.2.1 frameFieldB).2 ⟨by decide, by decide⟩
  · intro hmem
    exact ((h.2.1 frameFieldA).1 hmem).2 rfl

end CertGenie
